import Mathlib

deriving instance DecidableEq for Except

/-!
Shallow embedding of `src/mitiq/zne/inference.py` (zero-noise extrapolation
core). Python floats are modelled as rationals `ℚ`; the external numeric
kernels (`np.polyfit` via `mitiq_polyfit`, `scipy.optimize.curve_fit` via
`mitiq_curve_fit`, and the transcendental primitives `np.exp`, `np.log`,
`np.sqrt`, `np.cos`) are opaque caller-supplied collaborators, bundled into a
`Backend` structure over which the theorems quantify.  Python exceptions are
modelled by `Except PyErr`.  Warnings that the source merely emits
(`ExtrapolationWarning` on `push`, ill-conditioning warnings) carry no data
flow and are not modelled, with one exception: the `ConvergenceWarning` of
`AdaptiveFactory.run_classical` is modelled as a returned boolean flag since
claims are about exactly when it fires.
-/

namespace Mitiq

/-- Python exception kinds raised by the embedded code.  `valueError` covers
both the construction/fit `ValueError`s and the "data missing" `ValueError`
of the accessors (the source distinguishes them only by message). -/
inductive PyErr where
  | valueError
  | typeError
  | indexError
  | unboundLocalError
  | extrapolationError
deriving DecidableEq, Repr

/-- One entry of `Factory._instack`: a dictionary that always contains the
key `"scale_factor"` plus further keyword arguments (e.g. `"shots"`).
The mandatory key is a structure field; the remaining keys are an
association list. -/
structure InputRec where
  scale_factor : ℚ
  kwargs : List (String × ℚ) := []
deriving DecidableEq, Inhabited

/-- The mutable state owned by `Factory.__init__`. -/
structure FacState where
  instack : List InputRec
  outstack : List ℚ
  opt_params : Option (List ℚ)
  params_cov : Option (List (List ℚ))
  zne_limit : Option ℚ
  zne_error : Option ℚ
  zne_curve : Option (ℚ → ℚ)
  already_reduced : Bool
deriving Inhabited

/-- A freshly constructed `Factory` state. -/
def facInit : FacState :=
  { instack := [], outstack := [], opt_params := none, params_cov := none,
    zne_limit := none, zne_error := none, zne_curve := none,
    already_reduced := false }

/-- `Factory.get_scale_factors`: project `"scale_factor"` out of the instack. -/
def getScaleFactors (s : FacState) : List ℚ :=
  s.instack.map (·.scale_factor)

/-- `Factory.get_expectation_values`. -/
def getExpectationValues (s : FacState) : List ℚ :=
  s.outstack

/-- `Factory.get_optimal_parameters` (raises the data-missing `ValueError`
when `reduce` has not produced the value). -/
def getOptimalParameters (s : FacState) : Except PyErr (List ℚ) :=
  match s.opt_params with
  | none => .error .valueError
  | some p => .ok p

/-- `Factory.get_parameters_covariance`. -/
def getParametersCovariance (s : FacState) : Except PyErr (List (List ℚ)) :=
  match s.params_cov with
  | none => .error .valueError
  | some c => .ok c

/-- `Factory.get_zero_noise_limit`. -/
def getZeroNoiseLimit (s : FacState) : Except PyErr ℚ :=
  match s.zne_limit with
  | none => .error .valueError
  | some l => .ok l

/-- `Factory.get_zero_noise_limit_error`. -/
def getZeroNoiseLimitError (s : FacState) : Except PyErr ℚ :=
  match s.zne_error with
  | none => .error .valueError
  | some e => .ok e

/-- `Factory.get_extrapolation_curve`. -/
def getExtrapolationCurve (s : FacState) : Except PyErr (ℚ → ℚ) :=
  match s.zne_curve with
  | none => .error .valueError
  | some f => .ok f

/-- `Factory.push`: appends one instack/outstack pair.  The advisory
`ExtrapolationWarning` emitted when `already_reduced` is set carries no data
flow and is not modelled. -/
def facPush (s : FacState) (i : InputRec) (o : ℚ) : FacState :=
  { s with instack := s.instack ++ [i], outstack := s.outstack ++ [o] }

/-- `Factory.reset` exactly as written in the source: it reassigns
`_instack`, `_outstack`, `_opt_params`, `_params_cov`, `_zne_limit`,
`_zne_error` and `_already_reduced` — and does NOT touch `_zne_curve`. -/
def facReset (s : FacState) : FacState :=
  { s with
      instack := [], outstack := [], opt_params := none,
      params_cov := none, zne_limit := none, zne_error := none,
      already_reduced := false }

/-- The external numeric kernels used by the source, abstracted.
`polyfit` models `mitiq_polyfit` (a `numpy.polyfit` wrapper: coefficients
from the highest power down, covariance `none` when it cannot be estimated);
`curve_fit` models `mitiq_curve_fit` (a `scipy.optimize.curve_fit` wrapper:
it can fail with `ExtrapolationError`); `exp`, `log`, `sqrt`, `cos` model the
corresponding `numpy` scalar primitives. -/
structure Backend where
  polyfit : List ℚ → List ℚ → ℕ → Option (List ℚ) → (List ℚ × Option (List (List ℚ)))
  curve_fit : (ℚ → List ℚ → ℚ) → List ℚ → List ℚ → List ℚ →
      Except PyErr (List ℚ × Option (List (List ℚ)))
  exp : ℚ → ℚ
  log : ℚ → ℚ
  sqrt : ℚ → ℚ
  cos : ℚ → ℚ

/-- `np.sign`. -/
def npSign (x : ℚ) : ℚ := if 0 < x then 1 else if x < 0 then -1 else 0

/-- `np.polyval coeffs x`, with coefficients ordered from high powers down
(Horner evaluation, as numpy does). -/
def npPolyval (coeffs : List ℚ) (x : ℚ) : ℚ :=
  coeffs.foldl (fun acc a => acc * x + a) 0

/-- `cov.shape == (n, n)` for a matrix modelled as a list of rows. -/
def covShape (c : List (List ℚ)) (n : ℕ) : Bool :=
  c.length = n && c.all (fun row => row.length = n)

/-- `np.isclose a b` with numpy's default tolerances
(`|a - b| <= atol + rtol * |b|`, `rtol = 1e-5`, `atol = 1e-8`). -/
def npIsclose (a b : ℚ) : Bool :=
  |a - b| ≤ 1 / 100000000 + (1 / 100000) * |b|

/-- `np.allclose` on two float arrays: elementwise when the lengths agree,
scalar broadcast when one side has a single element, and a broadcast
`ValueError` otherwise. -/
def npAllclose (as bs : List ℚ) : Except PyErr Bool :=
  if as.length = bs.length then
    .ok ((as.zip bs).all fun p => npIsclose p.1 p.2)
  else if bs.length = 1 then
    .ok (as.all fun a => npIsclose a (bs.headD 0))
  else if as.length = 1 then
    .ok (bs.all fun b => npIsclose (as.headD 0) b)
  else .error .valueError

/-- `np.allclose(arr, scalar)` (scalar broadcast form). -/
def npAllcloseScalar (as : List ℚ) (b : ℚ) : Bool :=
  as.all fun a => npIsclose a b

/-- The five-component `full_output=True` payload of every `extrapolate`
static method: `(zne_limit, zne_error, opt_params, params_cov, zne_curve)`. -/
structure FullOut where
  zne_limit : ℚ
  zne_error : Option ℚ
  opt_params : List ℚ
  params_cov : Option (List (List ℚ))
  zne_curve : ℚ → ℚ

/-- The value returned by an `extrapolate` call: just the limit when
`full_output=False`, the five-tuple when `full_output=True`. -/
inductive ExtrapResult where
  | limitOnly (zne_limit : ℚ)
  | full (out : FullOut)

/-- The zero-noise limit carried by an `ExtrapResult` (the sole value in the
`limitOnly` case, the first tuple component in the `full` case). -/
def ExtrapResult.limit : ExtrapResult → ℚ
  | .limitOnly l => l
  | .full f => f.zne_limit

/-- The `zne_error` component of a `full` result (`none` for `limitOnly`). -/
def ExtrapResult.errComp : ExtrapResult → Option ℚ
  | .limitOnly _ => none
  | .full f => f.zne_error

/-- The fitted-curve component evaluated at a point (for `limitOnly` results
the constant limit, which is never used on that case in the theorems). -/
def ExtrapResult.curveAt (r : ExtrapResult) (x : ℚ) : ℚ :=
  match r with
  | .limitOnly l => l
  | .full f => f.zne_curve x

/-- `PolyFactory.extrapolate` with `full_output=True`: a least-squares
polynomial fit of the given degree; the limit is the trailing coefficient
(`opt_params[-1]`), the error is the square root of the last diagonal entry
of the covariance when its shape matches, and the curve is `np.polyval`. -/
def polyFull (bk : Backend) (scale_factors exp_values : List ℚ) (order : ℕ) :
    FullOut :=
  let fit := bk.polyfit scale_factors exp_values order none
  let opt_params := fit.1
  let params_cov := fit.2
  let zne_limit := opt_params.getLastD 0
  let zne_error : Option ℚ :=
    match params_cov with
    | some c =>
        if covShape c (order + 1) then
          some (bk.sqrt ((c.getD order []).getD order 0))
        else none
    | none => none
  { zne_limit := zne_limit, zne_error := zne_error, opt_params := opt_params,
    params_cov := params_cov, zne_curve := fun x => npPolyval opt_params x }

/-- `PolyFactory.extrapolate` (static method). -/
def polyExtrapolate (bk : Backend) (scale_factors exp_values : List ℚ)
    (order : ℕ) (full_output : Bool) : ExtrapResult :=
  if full_output then .full (polyFull bk scale_factors exp_values order)
  else .limitOnly (polyFull bk scale_factors exp_values order).zne_limit

/-- `RichardsonFactory.extrapolate`: a polynomial fit with order equal to
the number of data points minus 1. -/
def richardsonExtrapolate (bk : Backend) (scale_factors exp_values : List ℚ)
    (full_output : Bool) : ExtrapResult :=
  polyExtrapolate bk scale_factors exp_values (scale_factors.length - 1)
    full_output

/-- `RichardsonFactory.extrapolate` with `full_output=True`, as the raw
five-component payload. -/
def richardsonFull (bk : Backend) (scale_factors exp_values : List ℚ) :
    FullOut :=
  polyFull bk scale_factors exp_values (scale_factors.length - 1)

/-- `PolyFactory.reduce`: runs the polynomial extrapolation on the internal
data, caches all five outputs, sets `already_reduced`, and returns the
limit. -/
def polyReduce (bk : Backend) (order : ℕ) (s : FacState) : FacState × ℚ :=
  let f := polyFull bk (getScaleFactors s) (getExpectationValues s) order
  ({ s with
      zne_limit := some f.zne_limit, zne_error := f.zne_error,
      opt_params := some f.opt_params, params_cov := f.params_cov,
      zne_curve := some f.zne_curve, already_reduced := true },
   f.zne_limit)

/-- `Except.isOk` specialised helper. -/
def exceptIsOk {α : Type} : Except PyErr α → Bool
  | .ok _ => true
  | .error _ => false

/-- The float value of `np.pi` used by `FakeNodesFactory._map_to_fake_nodes`. -/
def npPi : ℚ := 3.141592653589793

/-- `min(arr)` on a nonempty float list (the source never calls it empty). -/
def npMinQ : List ℚ → ℚ
  | [] => 0
  | x :: xs => xs.foldl min x

/-- `max(arr)` on a nonempty float list. -/
def npMaxQ : List ℚ → ℚ
  | [] => 0
  | x :: xs => xs.foldl max x

/-- `FakeNodesFactory._map_to_fake_nodes` on a single value:
`S(x) = (a - b)/2 * cos(pi * (x - a)/(b - a)) + (a + b)/2`. -/
def mapToFakeNodes (bk : Backend) (x a b : ℚ) : ℚ :=
  (a - b) / 2 * bk.cos (npPi * (x - a) / (b - a)) + (a + b) / 2

/-- `np.diff` of a float list. -/
def npDiff (l : List ℚ) : List ℚ :=
  (l.zip l.tail).map fun p => p.2 - p.1

/-- `FakeNodesFactory._is_equally_spaced`: the differences of the sorted
sequence are all `np.allclose` to the first difference. -/
def isEquallySpaced (arr : List ℚ) : Bool :=
  let diff_arr := npDiff (arr.mergeSort (fun a b => a ≤ b))
  npAllcloseScalar diff_arr (diff_arr.headD 0)

/-- `FakeNodesFactory.extrapolate`.  Note the source computes a remapped
curve `new_curve` in the `full_output` branch but then returns the raw
`zne_curve`; the model reproduces this exactly (the `new_curve` binding is
kept, unused, as in the source). -/
def fakeNodesExtrapolate (bk : Backend) (scale_factors exp_values : List ℚ)
    (full_output : Bool) : Except PyErr ExtrapResult :=
  if !isEquallySpaced scale_factors then .error .valueError
  else
    let a : ℚ := 0
    let b : ℚ := npMinQ scale_factors + npMaxQ scale_factors
    let fake_nodes := scale_factors.map (fun x => mapToFakeNodes bk x a b)
    if !full_output then
      .ok (richardsonExtrapolate bk fake_nodes exp_values false)
    else
      let f := richardsonFull bk fake_nodes exp_values
      let new_curve := fun s => f.zne_curve (mapToFakeNodes bk s a b)
      let _ := new_curve
      .ok (.full f)

/-- Default `eps` argument of the `extrapolate` methods of the exponential
family (`1.0e-6`). -/
def epsDefault : ℚ := 1 / 1000000

/-- The `sign` parameter of the polynomial-exponential ansatz, deduced from
the slope of a preliminary degree-1 polynomial fit:
`sign = np.sign(-linear_params[0])`. -/
def polyExpSign (bk : Backend) (scale_factors exp_values : List ℚ) : ℚ :=
  npSign (-((bk.polyfit scale_factors exp_values 1 none).1.getD 0 0))

/-- `_ansatz_unknown(x, *coeffs)` of `PolyExpFactory.extrapolate`:
`coeffs[0] + coeffs[1] * exp(x * polyval(coeffs[2:][::-1], x))`. -/
def ansatzUnknown (bk : Backend) (x : ℚ) (coeffs : List ℚ) : ℚ :=
  coeffs.getD 0 0 + coeffs.getD 1 0 * bk.exp (x * npPolyval ((coeffs.drop 2).reverse) x)

/-- `_ansatz_known(x, *coeffs)` of `PolyExpFactory.extrapolate`:
`asymptote + coeffs[0] * exp(x * polyval(coeffs[1:][::-1], x))`. -/
def ansatzKnown (bk : Backend) (asymptote x : ℚ) (coeffs : List ℚ) : ℚ :=
  asymptote + coeffs.getD 0 0 * bk.exp (x * npPolyval ((coeffs.drop 1).reverse) x)

/-- The log-transformed shifted data of case 3 of `PolyExpFactory.extrapolate`:
`shifted_y = [max(sign * (y - asymptote), eps) for y in exp_values]`. -/
def polyExpShiftedY (bk : Backend) (scale_factors exp_values : List ℚ)
    (asymptote eps : ℚ) : List ℚ :=
  exp_values.map fun y =>
    max (polyExpSign bk scale_factors exp_values * (y - asymptote)) eps

/-- The polynomial coefficients `z_coefficients` fitted in case 3 of
`PolyExpFactory.extrapolate`: a weighted polynomial fit of
`log(shifted_y)` with weights `sqrt(|shifted_y|)`. -/
def polyExpZCoeffs (bk : Backend) (scale_factors exp_values : List ℚ)
    (order : ℕ) (asymptote eps : ℚ) : List ℚ :=
  (bk.polyfit scale_factors
    ((polyExpShiftedY bk scale_factors exp_values asymptote eps).map bk.log)
    order
    (some ((polyExpShiftedY bk scale_factors exp_values asymptote eps).map
      (fun v => bk.sqrt |v|)))).1

/-- `PolyExpFactory.extrapolate` (static method), all three fitting cases.
In case 3 (known asymptote, `avoid_log=False`) the source assigns the limit
to the local name `zero_limit`, binds the fit covariance to `param_cov`
while testing the stale `params_cov` (initialised to `None`), and its final
`return zne_limit` statement references a name never assigned on this path,
raising `UnboundLocalError`; the model reproduces all three slips. -/
def polyExpExtrapolate (bk : Backend) (scale_factors exp_values : List ℚ)
    (order : ℕ) (asymptote : Option ℚ) (avoid_log : Bool) (eps : ℚ)
    (full_output : Bool) : Except PyErr ExtrapResult :=
  let shift : ℕ := if asymptote = none then 1 else 0
  if scale_factors.length ≠ exp_values.length ∨ scale_factors.length < 2 then
    .error .valueError
  else if order > scale_factors.length - (1 + shift) then .error .valueError
  else
    let sign := polyExpSign bk scale_factors exp_values
    match asymptote with
    | none => do
        -- CASE 1: asymptote is None (non-linear fit of the full ansatz)
        let p_zero := [0, sign, -1] ++ List.replicate (order - 1) (0 : ℚ)
        let fit ← bk.curve_fit (ansatzUnknown bk) scale_factors exp_values p_zero
        let opt_params := fit.1
        let params_cov := fit.2
        let zne_limit := opt_params.getD 0 0 + opt_params.getD 1 0
        let zne_curve := fun x => ansatzUnknown bk x opt_params
        let zne_error : Option ℚ :=
          match params_cov with
          | some c =>
              if covShape c (order + 2) then
                some (bk.sqrt ((c.getD 0 []).getD 0 0
                  + 2 * (c.getD 0 []).getD 1 0 + (c.getD 1 []).getD 1 0))
              else none
          | none => none
        if full_output then
          .ok (.full ⟨zne_limit, zne_error, opt_params, params_cov, zne_curve⟩)
        else .ok (.limitOnly zne_limit)
    | some a =>
      if avoid_log then do
        -- CASE 2: asymptote given, avoid_log=True (non-linear shifted fit)
        let p_zero := [sign, -1] ++ List.replicate (order - 1) (0 : ℚ)
        let fit ← bk.curve_fit (ansatzKnown bk a) scale_factors exp_values p_zero
        let opt_params0 := fit.1
        let params_cov := fit.2
        let zne_limit := a + opt_params0.getD 0 0
        let zne_curve := fun x => ansatzKnown bk a x opt_params0
        let zne_error : Option ℚ :=
          match params_cov with
          | some c =>
              if covShape c (order + 1) then
                some (bk.sqrt ((c.getD 0 []).getD 0 0))
              else none
          | none => none
        let opt_params := [a] ++ opt_params0
        if full_output then
          .ok (.full ⟨zne_limit, zne_error, opt_params, params_cov, zne_curve⟩)
        else .ok (.limitOnly zne_limit)
      else
        -- CASE 3: asymptote given, avoid_log=False (log-linearised poly fit)
        let zne_error : Option ℚ := none
        let params_cov : Option (List (List ℚ)) := none
        let z_coefficients := polyExpZCoeffs bk scale_factors exp_values order a eps
        let zero_limit := a + sign * bk.exp (z_coefficients.getLastD 0)
        let zne_curve := fun s => a + sign * bk.exp (npPolyval z_coefficients s)
        -- `if params_cov is not None:` tests the initial `params_cov` (still
        -- `None`; the fit covariance went to the distinct name `param_cov`)
        let zne_error : Option ℚ :=
          match params_cov with
          | some c =>
              if covShape c (order + 1) then
                some (bk.exp (z_coefficients.getLastD 0)
                  * bk.sqrt ((c.getD (order + 1) []).getD (order + 1) 0))
              else zne_error
          | none => zne_error
        let opt_params := [a] ++ z_coefficients.reverse
        if full_output then
          .ok (.full ⟨zero_limit, zne_error, opt_params, params_cov, zne_curve⟩)
        else
          -- `return zne_limit`: never assigned on this path
          .error .unboundLocalError

/-- `ExpFactory.extrapolate`: the polynomial-exponential extrapolation with
`order=1`. -/
def expExtrapolate (bk : Backend) (scale_factors exp_values : List ℚ)
    (asymptote : Option ℚ) (avoid_log : Bool) (eps : ℚ) (full_output : Bool) :
    Except PyErr ExtrapResult :=
  polyExpExtrapolate bk scale_factors exp_values 1 asymptote avoid_log eps
    full_output

/-- A Python value that may appear in a `shot_list`: an `int` or a non-`int`
number. -/
inductive PyVal where
  | int (z : ℤ)
  | float (q : ℚ)
deriving DecidableEq

/-- `isinstance(v, int)`. -/
def PyVal.isInt : PyVal → Bool
  | .int _ => true
  | .float _ => false

/-- Numeric value of a `PyVal`. -/
def PyVal.toQ : PyVal → ℚ
  | .int z => z
  | .float q => q

/-- The configuration stored by a successfully constructed `BatchedFactory`:
`self._scale_factors` and `self._shot_list`. -/
structure BatchedConfig where
  scale_factors : List ℚ
  shot_list : Option (List ℚ) := none
deriving DecidableEq

/-- Python truthiness of the `shot_list` argument (`if shot_list:`):
`None` and the empty list are falsy. -/
def shotTruthy : Option (List PyVal) → Bool
  | none => false
  | some l => !l.isEmpty

/-- `BatchedFactory.__init__`: `ValueError` for fewer than 2 scale factors,
then `TypeError` for a truthy shot list containing a non-integer, then
`IndexError` for a truthy shot list of mismatched length (the truthiness
tests are Python's `if shot_list and ...`). -/
def batchedFactoryInit (scale_factors : List ℚ)
    (shot_list : Option (List PyVal)) : Except PyErr BatchedConfig :=
  if scale_factors.length < 2 then .error .valueError
  else if shotTruthy shot_list && !((shot_list.getD []).all PyVal.isInt) then
    .error .typeError
  else if shotTruthy shot_list
      && scale_factors.length != (shot_list.getD []).length then
    .error .indexError
  else .ok ⟨scale_factors, shot_list.map (fun l => l.map PyVal.toQ)⟩

/-- `BatchedFactory._batch_populate_instack`: one input record per scale
factor, with a `"shots"` key when the stored shot list is truthy. -/
def batchPopulateInstack (cfg : BatchedConfig) : List InputRec :=
  match cfg.shot_list with
  | some l =>
      if !l.isEmpty then
        List.zipWith (fun scf sh => InputRec.mk scf [("shots", sh)])
          cfg.scale_factors l
      else cfg.scale_factors.map (fun scf => InputRec.mk scf [])
  | none => cfg.scale_factors.map (fun scf => InputRec.mk scf [])

/-- An executor supplied by the caller: either a "single executor" (one
circuit, one value) or a "batched executor" (a list of circuits and their
keyword dictionaries, a list of values).  The source distinguishes the two
by the declared return-type annotation; the model uses this sum type.  A
batched executor carries the return contract of spec §6: it returns one
expectation value per submitted circuit. -/
inductive Executor (γ : Type) where
  | single (f : γ → List (String × ℚ) → ℚ)
  | batched (g : List γ → List (List (String × ℚ)) → List ℚ)
      (hg : ∀ cs ks, (g cs ks).length = cs.length)

/-- `np.average(res.reshape((-1, m)), axis=1)`: row-wise means of the flat
result list regrouped into rows of `m` columns. -/
def meanChunks (res : List ℚ) (m : ℕ) : List ℚ :=
  (List.range (res.length / m)).map fun i =>
    ((res.drop (i * m)).take m).sum / m

/-- `BatchedFactory.run`: reset, populate the instack, build
`num_to_average` noise-scaled circuits per scale factor (scale-factor-major
order), execute them through the single or batched executor, reshape to
`num_to_average` columns and average row-wise into the outstack.  The
reshape raises when `num_to_average` does not divide the number of results. -/
def batchedRun {γ : Type} (cfg : BatchedConfig) (qp : γ)
    (executor : Executor γ) (scale_noise : γ → ℚ → γ) (num_to_average : ℕ)
    (s : FacState) : Except PyErr FacState :=
  let s1 := facReset s
  let s2 := { s1 with instack := batchPopulateInstack cfg }
  let to_run := (getScaleFactors s2).flatMap fun scf =>
    List.replicate num_to_average (scale_noise qp scf)
  let kwargs_list := (s2.instack.map (·.kwargs)).flatMap fun k =>
    List.replicate num_to_average k
  let res := match executor with
    | .single f => (to_run.zip kwargs_list).map fun p => f p.1 p.2
    | .batched g _ => g to_run kwargs_list
  if num_to_average = 0 ∨ ¬ num_to_average ∣ res.length then .error .valueError
  else .ok { s2 with outstack := meanChunks res num_to_average }

/-- `BatchedFactory.run_classical`: reset, populate the instack, and call
the scale-factor-to-expectation-value function once per scale factor. -/
def batchedRunClassical (cfg : BatchedConfig)
    (fn : ℚ → List (String × ℚ) → ℚ) (s : FacState) : FacState :=
  let s1 := facReset s
  let s2 := { s1 with instack := batchPopulateInstack cfg }
  let kwargs_list := s2.instack.map (·.kwargs)
  { s2 with
      outstack := (cfg.scale_factors.zip kwargs_list).map fun p => fn p.1 p.2 }

/-- `AdaExpFactory._SHIFT_FACTOR`. -/
def shiftFactor : ℚ := 1.27846

/-- `AdaExpFactory._EPSILON`. -/
def epsilonAda : ℚ := 1 / 1000000000

/-- The configuration of an `AdaExpFactory` instance. -/
structure AdaConfig where
  steps : ℕ
  scale_factor : ℚ
  asymptote : Option ℚ
  avoid_log : Bool
  max_scale_factor : ℚ
deriving Inhabited

/-- One entry of `AdaExpFactory.history`:
`(instack, outstack, opt_params, zne_limit)` at the time of a `reduce`. -/
structure HistEntry where
  inputs : List InputRec
  outputs : List ℚ
  params : List ℚ
  limit : ℚ
deriving Inhabited

/-- The full state of an `AdaExpFactory` instance. -/
structure AdaFac where
  cfg : AdaConfig
  fac : FacState
  history : List HistEntry
deriving Inhabited

/-- `AdaExpFactory.reduce`: fit the exponential model (order-1
polynomial-exponential with the configured asymptote/avoid_log and default
`eps`) on the current data, cache the five outputs, append a history entry
and set `already_reduced`. -/
def adaReduce (bk : Backend) (s : AdaFac) : Except PyErr (AdaFac × ℚ) := do
  let r ← polyExpExtrapolate bk (getScaleFactors s.fac)
    (getExpectationValues s.fac) 1 s.cfg.asymptote s.cfg.avoid_log epsDefault
    true
  match r with
  | .full f =>
      let fac := { s.fac with
        zne_limit := some f.zne_limit, zne_error := f.zne_error,
        opt_params := some f.opt_params, params_cov := f.params_cov,
        zne_curve := some f.zne_curve, already_reduced := true }
      .ok ({ s with
              fac := fac,
              history := s.history
                ++ [⟨fac.instack, fac.outstack, f.opt_params, f.zne_limit⟩] },
           f.zne_limit)
  | .limitOnly _ =>
      -- unreachable: `full_output=True` always yields the five-tuple
      .error .typeError

/-- `AdaExpFactory.is_converged`: raises `IndexError` on mismatched stack
lengths, else converged exactly when the outstack holds `steps` values. -/
def adaIsConverged (s : AdaFac) : Except PyErr Bool :=
  if s.fac.outstack.length ≠ s.fac.instack.length then .error .indexError
  else .ok (s.fac.outstack.length = s.cfg.steps)

/-- `AdaExpFactory.next`: scale factor 1.0, then the configured second
scale factor, then (asymptote unknown) its double; afterwards a silent probe
`reduce()` (clearing `already_reduced` again), whose fitted exponent
`params[2]` determines
`min(1 + _SHIFT_FACTOR / np.abs(exponent + _EPSILON), max_scale_factor)`. -/
def adaNext (bk : Backend) (s : AdaFac) : Except PyErr (AdaFac × InputRec) :=
  if s.fac.instack.length = 0 then .ok (s, ⟨1, []⟩)
  else if s.fac.instack.length = 1 then .ok (s, ⟨s.cfg.scale_factor, []⟩)
  else if s.fac.instack.length = 2 ∧ s.cfg.asymptote = none then
    .ok (s, ⟨2 * s.cfg.scale_factor, []⟩)
  else do
    let (s1, _) ← adaReduce bk s
    let s2 := { s1 with fac := { s1.fac with already_reduced := false } }
    let params := (s2.history.getLastD default).params
    let exponent := params.getD 2 0
    let next_scale_factor :=
      min (1 + shiftFactor / |exponent + epsilonAda|) s.cfg.max_scale_factor
    .ok (s2, ⟨next_scale_factor, []⟩)

/-- The iteration loop of `AdaptiveFactory.run_classical`:
`while not self.is_converged() and counter < max_iterations`, asking
`next()`, evaluating the function at the proposed scale factor and pushing
the pair.  `fuel` is `max_iterations - counter`. -/
def adaRunLoop (bk : Backend) (fn : ℚ → List (String × ℚ) → ℚ) :
    ℕ → AdaFac → ℕ → Except PyErr (AdaFac × ℕ)
  | fuel, s, counter => do
    let conv ← adaIsConverged s
    if conv then .ok (s, counter)
    else
      match fuel with
      | 0 => .ok (s, counter)
      | fuel' + 1 => do
          let (s1, d) ← adaNext bk s
          let v := fn d.scale_factor d.kwargs
          let s2 := { s1 with fac := facPush s1.fac d v }
          adaRunLoop bk fn fuel' s2 (counter + 1)

/-- `AdaptiveFactory.run_classical` for the adaptive exponential factory:
reset, loop, and return the final state together with whether the
`ConvergenceWarning` fired (the source warns iff `counter ==
max_iterations` on exit). -/
def adaRunClassical (bk : Backend) (fn : ℚ → List (String × ℚ) → ℚ)
    (max_iterations : ℕ) (s : AdaFac) : Except PyErr (AdaFac × Bool) := do
  let s0 := { s with fac := facReset s.fac }
  let (s1, counter) ← adaRunLoop bk fn max_iterations s0 0
  .ok (s1, counter == max_iterations)

/-- Modelled from the spec: the helper `_are_close_dict` is imported from
`mitiq.utils`, a repository file not included under `src/`.  Per the spec
("pairwise-close Input Records (by value, including extra keys)"), two input
records are close iff they carry the same keys and pairwise numerically
close values. -/
def areCloseDict (d1 d2 : InputRec) : Bool :=
  npIsclose d1.scale_factor d2.scale_factor
    && d1.kwargs.map Prod.fst == d2.kwargs.map Prod.fst
    && ((d1.kwargs.map Prod.snd).zip (d2.kwargs.map Prod.snd)).all
        fun p => npIsclose p.1 p.2

/-- `Factory.__eq__`: same `already_reduced` flag, same instack length,
pairwise-close instack dictionaries, and `np.allclose` outstacks. -/
def factoryEq (s t : FacState) : Except PyErr Bool :=
  if s.already_reduced != t.already_reduced then .ok false
  else if s.instack.length != t.instack.length then .ok false
  else if !((s.instack.zip t.instack).all fun p => areCloseDict p.1 p.2) then
    .ok false
  else npAllclose s.outstack t.outstack

/-- `BatchedFactory.__eq__`: `Factory.__eq__` and `np.allclose` on the
configured scale factors. -/
def batchedFactoryEq (sf1 sf2 : List ℚ) (s t : FacState) :
    Except PyErr Bool := do
  let b ← factoryEq s t
  if b then npAllclose sf1 sf2 else .ok false

/-- The state of a `PolyExpFactory` instance. -/
structure PolyExpFac where
  scale_factors : List ℚ
  order : ℕ
  asymptote : Option ℚ
  avoid_log : Bool
  fac : FacState

/-- `np.isclose` applied to optional floats: `None` on either side is a
`TypeError` (numpy cannot subtract `NoneType`). -/
def npIscloseOptional (a b : Option ℚ) : Except PyErr Bool :=
  match a, b with
  | some x, some y => .ok (npIsclose x y)
  | _, _ => .error .typeError

/-- `PolyExpFactory.__eq__`: `BatchedFactory.__eq__`, the `isinstance`
check (both operands are `PolyExpFac` here), then `np.isclose` on the
asymptotes followed by the `avoid_log` and `order` comparisons. -/
def polyExpFactoryEq (f g : PolyExpFac) : Except PyErr Bool := do
  let b ← batchedFactoryEq f.scale_factors g.scale_factors f.fac g.fac
  if !b then .ok false
  else do
    let c ← npIscloseOptional f.asymptote g.asymptote
    .ok (c && f.avoid_log == g.avoid_log && f.order == g.order)

/-- One public data-collection operation on a factory, as named by the
spec's invariant: `push`, `run_classical`/`run` of a batched factory, or
`run_classical` of the adaptive exponential factory (its `run` delegates to
`run_classical` with an averaging wrapper and is subsumed by quantifying
over the function). -/
inductive FacOp (γ : Type) where
  | push (i : InputRec) (o : ℚ)
  | runClassicalB (cfg : BatchedConfig) (fn : ℚ → List (String × ℚ) → ℚ)
  | runB (cfg : BatchedConfig) (qp : γ) (executor : Executor γ)
      (scale_noise : γ → ℚ → γ) (num_to_average : ℕ)
  | runClassicalA (bk : Backend) (acfg : AdaConfig)
      (fn : ℚ → List (String × ℚ) → ℚ) (max_iterations : ℕ)

/-- Execute one factory operation on the shared `Factory` state. -/
def execOp {γ : Type} (op : FacOp γ) (s : FacState) : Except PyErr FacState :=
  match op with
  | .push i o => .ok (facPush s i o)
  | .runClassicalB cfg fn => .ok (batchedRunClassical cfg fn s)
  | .runB cfg qp ex sn m => batchedRun cfg qp ex sn m s
  | .runClassicalA bk acfg fn maxIter =>
      (adaRunClassical bk fn maxIter ⟨acfg, s, []⟩).map fun p => p.1.fac

/-- Execute a sequence of factory operations, stopping at the first raised
exception. -/
def execOps {γ : Type} (ops : List (FacOp γ)) (s : FacState) :
    Except PyErr FacState :=
  ops.foldlM (fun st op => execOp op st) s

/-! ### Concrete instantiations

Concrete numeric backends and factory states used to instantiate the
theorems on explicit inputs.  The transcendental primitives are chosen as
simple total functions (the theorems quantify over the backend wherever the
source's behaviour does not depend on it). -/

/-- A backend whose polynomial fits always return coefficients `[-1, 0]`
(slope `-1`, intercept `0`) with no covariance, whose nonlinear fit returns
an empty parameter list, and whose scalar primitives are the identity
(`cos` constantly `0`). -/
def bkE : Backend where
  polyfit := fun _ _ _ _ => ([-1, 0], none)
  curve_fit := fun _ _ _ _ => .ok ([], none)
  exp := id
  log := id
  sqrt := id
  cos := fun _ => 0

/-- A backend for the degree-1 polynomial fit whose coefficients are
`[2, 7]` and whose covariance is the 2×2 matrix `[[4, 0], [0, 9]]`. -/
def bkD : Backend where
  polyfit := fun _ _ _ _ => ([2, 7], some [[4, 0], [0, 9]])
  curve_fit := fun _ _ _ _ => .ok ([], none)
  exp := id
  log := id
  sqrt := id
  cos := fun _ => 0

/-- A backend whose polynomial fits return `[1, 0, 0]` (the polynomial
`x^2`) and whose `cos` is constantly `0`. -/
def bkC : Backend where
  polyfit := fun _ _ _ _ => ([1, 0, 0], none)
  curve_fit := fun _ _ _ _ => .ok ([], none)
  exp := id
  log := id
  sqrt := id
  cos := fun _ => 0

/-- A factory state holding given stacks and no cached fit outputs. -/
def facWith (ins : List InputRec) (outs : List ℚ) : FacState :=
  { facInit with instack := ins, outstack := outs }

/-- A two-point factory state for the polynomial `reduce`/`reset` scenario. -/
def c2state : FacState :=
  facWith [⟨1, []⟩, ⟨2, []⟩] [3, 5]

/-- The state after `PolyFactory.reduce` (order 1, backend `bkD`). -/
def c2reduced : FacState := (polyReduce bkD 1 c2state).1

/-- The state after the subsequent `reset()`. -/
def c2reset : FacState := facReset c2reduced

/-- An `AdaExpFactory` configuration: `steps = 3`, second scale factor `2`,
known asymptote `0`, `avoid_log = False`, `max_scale_factor = 6`. -/
def adaCfg0 : AdaConfig :=
  { steps := 3, scale_factor := 2, asymptote := some 0, avoid_log := false,
    max_scale_factor := 6 }

/-- An `AdaExpFactory` state holding three collected points. -/
def ada4 : AdaFac :=
  { cfg := adaCfg0, fac := facWith [⟨1, []⟩, ⟨2, []⟩, ⟨3, []⟩] [2, 3, 4],
    history := [] }

/-- The result of the probe `reduce()` on `ada4` with backend `bkE`. -/
def ada4red : AdaFac × ℚ := (adaReduce bkE ada4).toOption.getD default

/-- A fresh `AdaExpFactory` state with configuration `adaCfg0`. -/
def ada8 : AdaFac := { cfg := adaCfg0, fac := facInit, history := [] }

/-- The classical scale-factor-to-expectation-value function `λ ↦ λ + 1`. -/
def fn8 (scale_factor : ℚ) (_ : List (String × ℚ)) : ℚ := scale_factor + 1

/-- A concrete operation sequence mixing `push`, batched `run_classical`,
batched `run` (single executor, two circuits averaged per point) and the
adaptive `run_classical`. -/
def c1ops : List (FacOp Unit) :=
  [ .push ⟨1, []⟩ 5,
    .runClassicalB ⟨[1, 2, 3], none⟩ (fun scf _ => scf),
    .push ⟨2, []⟩ 7,
    .runB ⟨[1, 2], none⟩ () (.single fun _ _ => 1) (fun c _ => c) 2,
    .runClassicalA bkE adaCfg0 fn8 5 ]

/-- The state after executing `c1ops` from a fresh factory. -/
def c1sFinal : FacState := (execOps c1ops facInit).toOption.getD facInit

/-- Two bit-identical fresh `PolyExpFactory` states with `asymptote=None`. -/
def pefNone : PolyExpFac :=
  { scale_factors := [1, 2, 3], order := 1, asymptote := none,
    avoid_log := false, fac := facInit }

/-- The result of `PolyExpFactory.extrapolate` on a concrete two-point
input with known asymptote `1/2`, `avoid_log=False`, `full_output=True`. -/
def c10r : ExtrapResult :=
  (polyExpExtrapolate bkE [1, 2] [2, 1] 1 (some (1 / 2)) false epsDefault
    true).toOption.getD (.limitOnly 0)

/-- `FakeNodesFactory.extrapolate` on three equally spaced scale factors
with `full_output=True` and backend `bkC`. -/
def c5res : Except PyErr ExtrapResult :=
  fakeNodesExtrapolate bkC [1, 2, 3] [0, 1, 0] true

/-- The exponent parameter `params[2]` that the probe `reduce()` inside
`AdaExpFactory.next` reads from the last history entry (extracted from the
successful `adaReduce` result). -/
def adaProbeExponent (bk : Backend) (s : AdaFac) : ℚ :=
  (((adaReduce bk s).toOption.getD default).1.history.getLastD
    default).params.getD 2 0

/-! ### Helper lemmas -/

theorem length_flatMap_replicate {α β : Type} (l : List α) (m : ℕ)
    (f : α → β) :
    (l.flatMap fun x => List.replicate m (f x)).length = l.length * m := by
  induction l with
  | nil => simp
  | cons a t ih => simp [ih]; ring

theorem length_flatMap_replicate_id {α : Type} (l : List α) (m : ℕ) :
    (l.flatMap fun k => List.replicate m k).length = l.length * m :=
  length_flatMap_replicate l m id

theorem batchPopulateInstack_le (cfg : BatchedConfig) :
    (batchPopulateInstack cfg).length ≤ cfg.scale_factors.length := by
  unfold batchPopulateInstack
  cases cfg.shot_list with
  | none => simp
  | some l => by_cases h : l.isEmpty <;> simp [h, List.length_zipWith]

theorem batchedRunClassical_balanced (cfg : BatchedConfig)
    (fn : ℚ → List (String × ℚ) → ℚ) (s : FacState) :
    (batchedRunClassical cfg fn s).instack.length
      = (batchedRunClassical cfg fn s).outstack.length := by
  have h := batchPopulateInstack_le cfg
  simp [batchedRunClassical, List.length_zip]
  omega

theorem batchedRun_balanced {γ : Type} (cfg : BatchedConfig) (qp : γ)
    (ex : Executor γ) (sn : γ → ℚ → γ) (m : ℕ) (s s' : FacState)
    (h : batchedRun cfg qp ex sn m s = .ok s') :
    s'.instack.length = s'.outstack.length := by
  cases ex with
  | single f =>
      simp only [batchedRun] at h
      split at h
      · simp at h
      · next hguard =>
          have hm : m ≠ 0 := fun h0 => hguard (Or.inl h0)
          injection h with h2
          subst h2
          simp only [meanChunks, List.length_map, List.length_range,
            List.length_zip, length_flatMap_replicate,
            length_flatMap_replicate_id, getScaleFactors]
          rw [Nat.min_self, Nat.mul_div_cancel _ (Nat.pos_of_ne_zero hm)]
  | batched g hg =>
      simp only [batchedRun] at h
      split at h
      · simp at h
      · next hguard =>
          have hm : m ≠ 0 := fun h0 => hguard (Or.inl h0)
          injection h with h2
          subst h2
          simp only [meanChunks, List.length_map, List.length_range, hg,
            length_flatMap_replicate, getScaleFactors]
          rw [Nat.mul_div_cancel _ (Nat.pos_of_ne_zero hm)]

theorem adaReduce_stacks (bk : Backend) (s t : AdaFac) (l : ℚ)
    (h : adaReduce bk s = .ok (t, l)) :
    t.fac.instack = s.fac.instack ∧ t.fac.outstack = s.fac.outstack := by
  unfold adaReduce at h
  cases hr : polyExpExtrapolate bk (getScaleFactors s.fac)
      (getExpectationValues s.fac) 1 s.cfg.asymptote s.cfg.avoid_log
      epsDefault true with
  | error e => rw [hr] at h; simp [Bind.bind, Except.bind] at h
  | ok r =>
      rw [hr] at h
      cases r with
      | limitOnly _ => simp [Bind.bind, Except.bind] at h
      | full f =>
          simp only [Bind.bind, Except.bind, Except.ok.injEq,
            Prod.mk.injEq] at h
          obtain ⟨h1, -⟩ := h
          subst h1
          exact ⟨rfl, rfl⟩

theorem adaNext_stacks (bk : Backend) (s t : AdaFac) (d : InputRec)
    (h : adaNext bk s = .ok (t, d)) :
    t.fac.instack = s.fac.instack ∧ t.fac.outstack = s.fac.outstack := by
  unfold adaNext at h
  split at h
  · injection h with h2; cases h2; exact ⟨rfl, rfl⟩
  · split at h
    · injection h with h2; cases h2; exact ⟨rfl, rfl⟩
    · split at h
      · injection h with h2; cases h2; exact ⟨rfl, rfl⟩
      · cases hr : adaReduce bk s with
        | error e => rw [hr] at h; simp [Bind.bind, Except.bind] at h
        | ok p =>
            rw [hr] at h
            simp only [Bind.bind, Except.bind, Except.ok.injEq,
              Prod.mk.injEq] at h
            obtain ⟨h1, -⟩ := h
            subst h1
            exact adaReduce_stacks bk s p.1 p.2 (by rw [hr])

theorem adaRunLoop_spec (bk : Backend) (fn : ℚ → List (String × ℚ) → ℚ) :
    ∀ (fuel : ℕ) (s : AdaFac) (c : ℕ) (s' : AdaFac) (c' : ℕ),
      adaRunLoop bk fn fuel s c = .ok (s', c') →
      s'.fac.instack.length + s.fac.outstack.length
          = s.fac.instack.length + s'.fac.outstack.length
        ∧ s'.fac.outstack.length + c = s.fac.outstack.length + c' := by
  intro fuel
  induction fuel with
  | zero =>
      intro s c s' c' h
      rw [adaRunLoop] at h
      cases hc : adaIsConverged s with
      | error e => rw [hc] at h; simp [Bind.bind, Except.bind] at h
      | ok b =>
          rw [hc] at h
          simp only [Bind.bind, Except.bind] at h
          split at h <;>
            · simp only [Except.ok.injEq, Prod.mk.injEq] at h
              obtain ⟨h1, h2⟩ := h
              subst h1; subst h2
              omega
  | succ n ih =>
      intro s c s' c' h
      rw [adaRunLoop] at h
      cases hc : adaIsConverged s with
      | error e => rw [hc] at h; simp [Bind.bind, Except.bind] at h
      | ok b =>
          rw [hc] at h
          simp only [Bind.bind, Except.bind] at h
          split at h
          · simp only [Except.ok.injEq, Prod.mk.injEq] at h
            obtain ⟨h1, h2⟩ := h
            subst h1; subst h2
            omega
          · cases hn : adaNext bk s with
            | error e => rw [hn] at h; simp at h
            | ok q =>
                rw [hn] at h
                simp only at h
                have hst := adaNext_stacks bk s q.1 q.2 (by rw [hn])
                have hrec := ih _ _ _ _ h
                simp only [facPush, List.length_append, List.length_cons,
                  List.length_nil, hst.1, hst.2] at hrec
                omega

theorem adaRunClassical_spec (bk : Backend)
    (fn : ℚ → List (String × ℚ) → ℚ) (max_iterations : ℕ) (s : AdaFac)
    (p : AdaFac × Bool)
    (h : adaRunClassical bk fn max_iterations s = .ok p) :
    p.1.fac.instack.length = p.1.fac.outstack.length
      ∧ p.2 = (p.1.fac.outstack.length == max_iterations) := by
  simp only [adaRunClassical] at h
  cases hl : adaRunLoop bk fn max_iterations { s with fac := facReset s.fac }
      0 with
  | error e => rw [hl] at h; simp [Bind.bind, Except.bind] at h
  | ok q =>
      rw [hl] at h
      simp only [Bind.bind, Except.bind, Except.ok.injEq] at h
      subst h
      dsimp only
      have hspec := adaRunLoop_spec bk fn max_iterations _ 0 q.1 q.2
        (by rw [hl])
      simp only [facReset, List.length_nil] at hspec
      have hout : q.1.fac.outstack.length = q.2 := by omega
      refine ⟨by omega, ?_⟩
      simp [hout]

theorem execOp_balanced {γ : Type} (op : FacOp γ) (s s' : FacState)
    (hb : s.instack.length = s.outstack.length)
    (h : execOp op s = .ok s') :
    s'.instack.length = s'.outstack.length := by
  cases op with
  | push i o =>
      simp only [execOp] at h
      injection h with h2
      subst h2
      simp [facPush, hb]
  | runClassicalB cfg fn =>
      simp only [execOp] at h
      injection h with h2
      subst h2
      exact batchedRunClassical_balanced cfg fn s
  | runB cfg qp ex sn m =>
      simp only [execOp] at h
      exact batchedRun_balanced cfg qp ex sn m s s' h
  | runClassicalA bk acfg fn maxIter =>
      simp only [execOp] at h
      cases hr : adaRunClassical bk fn maxIter ⟨acfg, s, []⟩ with
      | error e => rw [hr] at h; simp [Except.map] at h
      | ok p =>
          rw [hr] at h
          simp only [Except.map, Except.ok.injEq] at h
          subst h
          exact (adaRunClassical_spec bk fn maxIter _ p hr).1

theorem execOps_balanced {γ : Type} :
    ∀ (ops : List (FacOp γ)) (s s' : FacState),
      s.instack.length = s.outstack.length →
      execOps ops s = .ok s' →
      s'.instack.length = s'.outstack.length := by
  intro ops
  induction ops with
  | nil =>
      intro s s' hb h
      simp only [execOps, List.foldlM_nil] at h
      injection h with h2
      subst h2
      exact hb
  | cons op rest ih =>
      intro s s' hb h
      simp only [execOps, List.foldlM_cons] at h
      cases hx : execOp op s with
      | error e => rw [hx] at h; simp [Bind.bind, Except.bind] at h
      | ok t =>
          rw [hx] at h
          simp only [Bind.bind, Except.bind] at h
          exact ih t s' (execOp_balanced op s t hb hx) h

/-! ### Claim theorems -/

/-- C1: for every factory and every successful sequence of `run`,
`run_classical` and `push` operations starting from a fresh factory, the
input and output stacks end with equal lengths:
`len(get_scale_factors()) == len(get_expectation_values())`.  A sequence
whose execution raises is excluded by the `map` formulation (both sides are
then the same error). -/
theorem factory_stack_lengths_invariant {γ : Type} (ops : List (FacOp γ)) :
    (execOps ops facInit).map
        (fun s => decide ((getScaleFactors s).length
          = (getExpectationValues s).length))
      = (execOps ops facInit).map (fun _ => true) := by
  cases h : execOps ops facInit with
  | error e => rfl
  | ok s =>
      have hb := execOps_balanced ops facInit s (by simp [facInit]) h
      simp [Except.map, getScaleFactors, getExpectationValues, hb]

/-- C2 (code bug): after `PolyFactory.reduce` on a two-point factory and a
subsequent `reset()`, the four accessors `get_optimal_parameters`,
`get_parameters_covariance`, `get_zero_noise_limit` and
`get_zero_noise_limit_error` all raise the data-missing `ValueError`, but
`get_extrapolation_curve` still succeeds: `Factory.reset` reassigns every
cached field except `_zne_curve`, so the stale curve survives, contradicting
the claim (and the docstring "Resets the internal state of the Factory"). -/
theorem reset_retains_stale_extrapolation_curve :
    getOptimalParameters c2reset = .error .valueError
    ∧ getParametersCovariance c2reset = .error .valueError
    ∧ getZeroNoiseLimit c2reset = .error .valueError
    ∧ getZeroNoiseLimitError c2reset = .error .valueError
    ∧ exceptIsOk (getExtrapolationCurve c2reduced) = true
    ∧ exceptIsOk (getExtrapolationCurve c2reset) = true := by decide

/-- C3 (code bug): in case 3 of `PolyExpFactory.extrapolate` (known
asymptote, `avoid_log=False`, valid data) the `full_output=True` call
returns `asymptote + sign * exp(z(0))` (with `sign` from the degree-1
pre-fit and `z(0)` the trailing fitted coefficient) as the first tuple
component, but the `full_output=False` call raises `UnboundLocalError`
instead of returning that limit: the source assigns the limit to
`zero_limit` yet its final statement is `return zne_limit`, a name never
assigned on this path. -/
theorem polyexp_known_asymptote_log_case (bk : Backend)
    (scale_factors exp_values : List ℚ) (order : ℕ) (a eps : ℚ)
    (hlen : scale_factors.length = exp_values.length)
    (h2 : 2 ≤ scale_factors.length)
    (hord : order ≤ scale_factors.length - 1) :
    polyExpExtrapolate bk scale_factors exp_values order (some a) false eps
        false = .error .unboundLocalError
      ∧ (polyExpExtrapolate bk scale_factors exp_values order (some a) false
          eps true).map ExtrapResult.limit
        = .ok (a + polyExpSign bk scale_factors exp_values
            * bk.exp ((polyExpZCoeffs bk scale_factors exp_values order a
                eps).getLastD 0)) := by
  have hc1 : ¬ (scale_factors.length ≠ exp_values.length
      ∨ scale_factors.length < 2) := by omega
  have hshift : (if (some a : Option ℚ) = none then (1 : ℕ) else 0) = 0 :=
    if_neg (by simp)
  have hc2 : ¬ (order > scale_factors.length
      - (1 + (if (some a : Option ℚ) = none then (1 : ℕ) else 0))) := by
    rw [hshift]; omega
  constructor
  · simp only [polyExpExtrapolate]
    rw [if_neg hc1, if_neg hc2]
    rfl
  · simp only [polyExpExtrapolate]
    rw [if_neg hc1, if_neg hc2]
    rfl

/-- C3 witness: the hypotheses of `polyexp_known_asymptote_log_case` hold
and its conclusion follows at the concrete input `scale_factors=[1,2]`,
`exp_values=[2,1]`, `order=1`, `asymptote=1/2` with backend `bkE`. -/
theorem polyexp_known_asymptote_log_case_witness :
    ([1, 2] : List ℚ).length = ([2, 1] : List ℚ).length
    ∧ 2 ≤ ([1, 2] : List ℚ).length
    ∧ 1 ≤ ([1, 2] : List ℚ).length - 1
    ∧ (polyExpExtrapolate bkE [1, 2] [2, 1] 1 (some (1 / 2)) false epsDefault
        false = .error .unboundLocalError
      ∧ (polyExpExtrapolate bkE [1, 2] [2, 1] 1 (some (1 / 2)) false
          epsDefault true).map ExtrapResult.limit
        = .ok ((1 / 2) + polyExpSign bkE [1, 2] [2, 1]
            * bkE.exp ((polyExpZCoeffs bkE [1, 2] [2, 1] 1 (1 / 2)
                epsDefault).getLastD 0))) :=
  ⟨by decide, by decide, by decide,
    polyexp_known_asymptote_log_case bkE [1, 2] [2, 1] 1 (1 / 2) epsDefault
      (by decide) (by decide) (by decide)⟩

/-- C4 counterexample: with backend `bkE` the probe re-fit on the
three-point state `ada4` yields exponent `params[2] = -1`, and `next()`
returns `1 + _SHIFT_FACTOR / |exponent + _EPSILON|
= 2278459999/999999999`, whereas the claim's formula
`min(1 + 1.27846/(|exponent| + 1e-9), max_scale_factor)` evaluates to the
strictly smaller `2278460001/1000000001`: the source divides by
`np.abs(exponent + _EPSILON)`, not by `np.abs(exponent) + _EPSILON`. -/
theorem adaexp_next_shift_counterexample :
    (adaNext bkE ada4).map (fun p => p.2.scale_factor)
        = .ok (2278459999 / 999999999 : ℚ)
      ∧ (adaReduce bkE ada4).map
          (fun p => (p.1.history.getLastD default).params.getD 2 0)
        = .ok (-1)
      ∧ min (1 + shiftFactor / (|(-1 : ℚ)| + epsilonAda))
          ada4.cfg.max_scale_factor = 2278460001 / 1000000001
      ∧ (2278460001 / 1000000001 : ℚ) < 2278459999 / 999999999 := by
  refine ⟨?_, ?_, ?_, by norm_num⟩
  · have h1 : (adaNext bkE ada4).map (fun p => p.2.scale_factor)
        = .ok (min (1 + shiftFactor / |(-1 : ℚ) + epsilonAda|) 6) := by
      simp [adaNext, adaReduce, ada4, adaCfg0, facWith, facInit,
        polyExpExtrapolate, getScaleFactors, getExpectationValues,
        polyExpZCoeffs, polyExpShiftedY, polyExpSign, npSign, bkE,
        epsDefault, Bind.bind, Except.bind, Except.map, List.getLastD]
    rw [h1]
    have habs : |(-1 : ℚ) + epsilonAda| = 1 - epsilonAda := by
      rw [abs_of_neg (by norm_num [epsilonAda])]; ring
    rw [habs, min_eq_left (by norm_num [shiftFactor, epsilonAda])]
    norm_num [shiftFactor, epsilonAda]
  · simp [adaReduce, ada4, adaCfg0, facWith, facInit, polyExpExtrapolate,
      getScaleFactors, getExpectationValues, polyExpZCoeffs,
      polyExpShiftedY, polyExpSign, npSign, bkE, epsDefault, Bind.bind,
      Except.bind, Except.map, List.getLastD]
  · rw [show |(-1 : ℚ)| = 1 by simp]
    have h6 : ada4.cfg.max_scale_factor = 6 := rfl
    rw [h6, min_eq_left (by norm_num [shiftFactor, epsilonAda])]
    norm_num [shiftFactor, epsilonAda]

/-- C4 (amended): once at least 3 points are collected, `next()` succeeds
exactly when the probe `reduce()` succeeds and returns the input record
`{scale_factor: min(1 + _SHIFT_FACTOR / |exponent + _EPSILON|,
max_scale_factor)}`, where `exponent` is `params[2]` of the history entry
appended by the probe re-fit — i.e. the claim's formula with
`|exponent| + 1e-9` replaced by `|exponent + 1e-9|`. -/
theorem adaexp_next_shifted_abs_scale_factor (bk : Backend) (s : AdaFac)
    (h3 : 3 ≤ s.fac.instack.length)
    (hok : exceptIsOk (adaReduce bk s) = true) :
    (adaNext bk s).map (fun p => p.2.scale_factor)
      = .ok (min (1 + shiftFactor / |adaProbeExponent bk s + epsilonAda|)
          s.cfg.max_scale_factor) := by
  unfold adaNext
  rw [if_neg (by omega), if_neg (by omega),
    if_neg (by rintro ⟨h2, -⟩; omega)]
  cases hr : adaReduce bk s with
  | error e => rw [hr] at hok; simp [exceptIsOk] at hok
  | ok p =>
      simp [adaProbeExponent, hr, Bind.bind, Except.bind, Except.map,
        Except.toOption]

/-- C4 witness: the hypotheses of `adaexp_next_shifted_abs_scale_factor`
hold and its conclusion follows on the concrete state `ada4` with backend
`bkE`. -/
theorem adaexp_next_shifted_abs_scale_factor_witness :
    3 ≤ ada4.fac.instack.length
    ∧ exceptIsOk (adaReduce bkE ada4) = true
    ∧ (adaNext bkE ada4).map (fun p => p.2.scale_factor)
      = .ok (min (1 + shiftFactor / |adaProbeExponent bkE ada4 + epsilonAda|)
          ada4.cfg.max_scale_factor) :=
  ⟨by decide, by decide,
    adaexp_next_shifted_abs_scale_factor bkE ada4 (by decide) (by decide)⟩

/-- C5 (code bug): on the equally spaced input `[1,2,3]` with backend `bkC`
(whose Richardson fit is the polynomial `P(x) = x^2`), the curve returned by
`FakeNodesFactory.extrapolate` with `full_output=True` evaluates at `1` to
`P(1) = 1`, the raw fake-space polynomial at `1` itself — whereas the value
the claim requires at `1` is `P(S(1)) = 4` (the second component below, the
returned curve evaluated at the mapped node `S(1) = 2`).  Since `1 < 4`,
the returned curve is not the composed curve: the source computes
`new_curve` but returns `zne_curve`. -/
theorem fakenodes_full_output_returns_unmapped_curve :
    (c5res.map fun r => (r.curveAt 1,
        r.curveAt (mapToFakeNodes bkC 1 0 4))) = .ok (1, 4)
      ∧ (1 : ℚ) < 4 := by
  constructor
  · have hsort : ([1, 2, 3] : List ℚ).mergeSort (fun a b => a ≤ b)
        = [1, 2, 3] := by
      apply List.mergeSort_eq_self
      norm_num [List.Sorted]
    have heq : isEquallySpaced ([1, 2, 3] : List ℚ) = true := by
      rw [isEquallySpaced, hsort]
      norm_num [npDiff, npAllcloseScalar, npIsclose]
    simp [c5res, fakeNodesExtrapolate, heq, richardsonFull, polyFull, bkC,
      mapToFakeNodes, npMinQ, npMaxQ, npPi, ExtrapResult.curveAt, npPolyval,
      Except.map, covShape]
    norm_num
  · norm_num

/-- C6: `RichardsonFactory.extrapolate` on `n ≥ 2` equal-length data lists
returns exactly `PolyFactory.extrapolate` with `order = n - 1` — the whole
result (limit, error, parameters, covariance and curve) coincides, for any
numeric backend and either value of `full_output`. -/
theorem richardson_extrapolate_eq_poly_max_order (bk : Backend)
    (scale_factors exp_values : List ℚ) (full_output : Bool)
    (_h2 : 2 ≤ scale_factors.length)
    (_hlen : scale_factors.length = exp_values.length) :
    richardsonExtrapolate bk scale_factors exp_values full_output
      = polyExtrapolate bk scale_factors exp_values
          (scale_factors.length - 1) full_output := rfl

/-- C6 witness: the hypotheses of
`richardson_extrapolate_eq_poly_max_order` hold and its conclusion follows
on three concrete points with backend `bkE` (with `order = 2 = n - 1`). -/
theorem richardson_extrapolate_eq_poly_max_order_witness :
    2 ≤ ([1, 2, 3] : List ℚ).length
    ∧ ([1, 2, 3] : List ℚ).length = ([1, 4, 9] : List ℚ).length
    ∧ richardsonExtrapolate bkE [1, 2, 3] [1, 4, 9] true
      = polyExtrapolate bkE [1, 2, 3] [1, 4, 9] 2 true :=
  ⟨by decide, by decide,
    richardson_extrapolate_eq_poly_max_order bkE [1, 2, 3] [1, 4, 9] true
      (by decide) (by decide)⟩

/-- C7 counterexample: `BatchedFactory.__init__` accepts an explicitly
passed empty `shot_list` whose length (0) differs from
`len(scale_factors)` (2), instead of raising `IndexError` as the claim
requires: the source guards both shot-list checks with the truthiness test
`if shot_list`, and an empty list is falsy. -/
theorem batched_init_empty_shot_list_accepted :
    batchedFactoryInit [1, 2] (some []) = .ok ⟨[1, 2], some []⟩
    ∧ ([1, 2] : List ℚ).length ≠ ([] : List PyVal).length := by decide

/-- C7 (amended): `BatchedFactory.__init__` raises `ValueError` whenever
fewer than 2 scale factors are given; otherwise raises `TypeError` whenever
a truthy (non-empty) shot list contains a non-integer; otherwise raises
`IndexError` whenever a truthy shot list has a different length; otherwise
(including when the shot list is `None` or empty) succeeds. -/
theorem batched_init_error_classification (scale_factors : List ℚ)
    (shot_list : Option (List PyVal)) :
    (scale_factors.length < 2 →
        batchedFactoryInit scale_factors shot_list = .error .valueError)
    ∧ (2 ≤ scale_factors.length → shotTruthy shot_list = true →
        (shot_list.getD []).all PyVal.isInt = false →
        batchedFactoryInit scale_factors shot_list = .error .typeError)
    ∧ (2 ≤ scale_factors.length → shotTruthy shot_list = true →
        (shot_list.getD []).all PyVal.isInt = true →
        scale_factors.length ≠ (shot_list.getD []).length →
        batchedFactoryInit scale_factors shot_list = .error .indexError)
    ∧ (2 ≤ scale_factors.length →
        (shotTruthy shot_list = true →
          (shot_list.getD []).all PyVal.isInt = true
            ∧ scale_factors.length = (shot_list.getD []).length) →
        batchedFactoryInit scale_factors shot_list
          = .ok ⟨scale_factors, shot_list.map (fun l => l.map PyVal.toQ)⟩) := by
  refine ⟨fun h1 => ?_, fun h1 ht hbad => ?_, fun h1 ht hint hne => ?_,
    fun h1 hok => ?_⟩
  · simp [batchedFactoryInit, h1]
  · simp only [batchedFactoryInit]
    rw [if_neg (by omega), if_pos (by simp [ht, hbad])]
  · simp only [batchedFactoryInit]
    rw [if_neg (by omega), if_neg (by simp [hint]),
      if_pos (by simp [ht, hne])]
  · by_cases hts : shotTruthy shot_list = true
    · obtain ⟨hall, hlen⟩ := hok hts
      simp only [batchedFactoryInit]
      rw [if_neg (by omega), if_neg (by simp [hall]),
        if_neg (by simp [hlen])]
    · simp only [batchedFactoryInit]
      rw [if_neg (by omega), if_neg (by simp [hts]),
        if_neg (by simp [hts])]

/-- C7 witness: the hypotheses of the `TypeError` branch of
`batched_init_error_classification` hold and its conclusion follows at the
concrete input `scale_factors=[1,2]`, `shot_list=[0.5]`. -/
theorem batched_init_error_classification_witness :
    2 ≤ ([1, 2] : List ℚ).length
    ∧ shotTruthy (some [PyVal.float (1 / 2)]) = true
    ∧ ((some [PyVal.float (1 / 2)] : Option (List PyVal)).getD
        []).all PyVal.isInt = false
    ∧ batchedFactoryInit [1, 2] (some [PyVal.float (1 / 2)])
        = .error .typeError :=
  ⟨by decide, by decide, by decide,
    (batched_init_error_classification [1, 2]
      (some [PyVal.float (1 / 2)])).2.1 (by decide) (by decide) (by decide)⟩

/-- C8 counterexample: an `AdaExpFactory` with `steps = 3` run with
`max_iterations = 3` converges exactly on the final allowed iteration, and
`run_classical` still emits the `ConvergenceWarning` (`p.2 = true`) while
`is_converged()` reports `True` on the final state — the source warns
whenever `counter == max_iterations`, not only when the cap is reached
without convergence. -/
theorem ada_run_classical_warns_at_cap_despite_convergence :
    (adaRunClassical bkE fn8 3 ada8).map
      (fun p => (p.2, adaIsConverged p.1)) = .ok (true, .ok true) := by
  decide

/-- C8 (amended): for every adaptive exponential factory run that returns,
the `ConvergenceWarning` fires exactly when the number of collected points
equals `max_iterations` — including the case where the factory converged on
the final allowed iteration; the run returns normally either way, with the
collected data retained. -/
theorem ada_run_classical_warning_iff_cap (bk : Backend)
    (fn : ℚ → List (String × ℚ) → ℚ) (max_iterations : ℕ) (s : AdaFac) :
    (adaRunClassical bk fn max_iterations s).map
        (fun p => p.2 == (p.1.fac.outstack.length == max_iterations))
      = (adaRunClassical bk fn max_iterations s).map (fun _ => true) := by
  cases h : adaRunClassical bk fn max_iterations s with
  | error e => rfl
  | ok p =>
      have hspec := (adaRunClassical_spec bk fn max_iterations s p h).2
      simp [Except.map, hspec]

/-- C9 (code bug): comparing two identically configured `PolyExpFactory`
instances with `asymptote=None` raises `TypeError` instead of returning
`True`: after `BatchedFactory.__eq__` succeeds, `PolyExpFactory.__eq__`
calls `np.isclose(None, None)`, which numpy cannot evaluate
(`ExpFactory.__eq__`, by contrast, special-cases `None` asymptotes). -/
theorem polyexp_eq_none_asymptote_raises_type_error :
    polyExpFactoryEq pefNone pefNone = .error .typeError := by
  simp [polyExpFactoryEq, batchedFactoryEq, factoryEq, pefNone, facInit,
    npAllclose, npIsclose, areCloseDict, npIscloseOptional, Bind.bind,
    Except.bind]
  norm_num

/-- C10: every returning `full_output=True` call of
`PolyExpFactory.extrapolate` with a given asymptote and `avoid_log=False`
carries `zne_error = None`, whatever covariance the weighted polynomial fit
produced: case 3 binds the fit covariance to the local name `param_cov`
while the error-propagation block tests the distinct `params_cov`, which is
still its initial `None`. -/
theorem polyexp_case3_zne_error_always_none (bk : Backend)
    (scale_factors exp_values : List ℚ) (order : ℕ) (a eps : ℚ) :
    (polyExpExtrapolate bk scale_factors exp_values order (some a) false eps
        true).map ExtrapResult.errComp
      = (polyExpExtrapolate bk scale_factors exp_values order (some a) false
        eps true).map (fun _ => none) := by
  have hshift : (if (some a : Option ℚ) = none then (1 : ℕ) else 0) = 0 :=
    if_neg (by simp)
  simp only [polyExpExtrapolate, hshift]
  split
  · rfl
  · split
    · rfl
    · rfl

end Mitiq
